import Mathlib

/-!
Verification development for the ifictionbot session module
(src/ifictionbot/session.py).  The Python code is shallowly embedded:
strings become `List Char`, the interpreter-process driver's pure logic
(paragraph reconstruction, suppression counter, command dispatch) becomes
Lean functions, and the session controller's dialog routing becomes a
state-passing function that also records the side effects it performs
(messages sent, stdin writes, dialog stop/start calls) as an explicit
effect trace.  Code paths where Python raises (IndexError / KeyError)
are modelled with `Option`, `none` marking the raise.
-/

/-- Python strings are modelled as lists of characters. -/
abbrev Str := List Char

/-- Whitespace as recognised by Python's `str.strip` (ASCII fragment). -/
def pyIsSpace (c : Char) : Bool :=
  c == ' ' || c == '\t' || c == '\n' || c == '\r' || c == '\x0b' || c == '\x0c'

/-- Python `str.strip()`: drop leading and trailing whitespace. -/
def pyStrip (s : Str) : Str :=
  ((s.dropWhile pyIsSpace).reverse.dropWhile pyIsSpace).reverse

/-- Python `c.isupper()` for a single character (ASCII fragment). -/
def pyIsUpper (c : Char) : Bool := c.isUpper

/-- Python `str.lower()` (ASCII fragment). -/
def pyToLower (s : Str) : Str := s.map Char.toLower

/-- Python truthiness of `Process.returncode`: `None` while the process is
running, the integer exit status once it has exited; `None` and `0` are
falsy, any nonzero exit status is truthy. -/
def pyTruthyRc : Option Int → Bool
  | none => false
  | some n => n != 0

/-- `unique_list_prepend` (session.py line 43): `[val]` followed by every
element of `ls` different from `val`, in order. -/
def unique_list_prepend (ls : List Str) (val : Str) : List Str :=
  val :: ls.filter (fun l => decide (l ≠ val))

/-- Python `list.remove(val)`: delete the first occurrence of `val`.  The
only call site (`add_to_recently_played`) guards with `val in arr`, so the
`ValueError` branch for an absent value is unreachable there; on an absent
value this returns the list unchanged. -/
def removeFirst : List Str → Str → List Str
  | [], _ => []
  | x :: xs, v => if x = v then xs else x :: removeFirst xs v

/-- `add_to_recently_played` (session.py line 498): remove the first
occurrence of `val` if present, then insert `val` at the head.  Note that
unlike the `GameDialog.start` path there is no truncation to 10 entries. -/
def add_to_recently_played (arr : List Str) (val : Str) : List Str :=
  let arr1 := if val ∈ arr then removeFirst arr val else arr
  val :: arr1

/-- The recently-played update performed by `GameDialog.start`
(session.py line 413): `unique_list_prepend(...)[:10]`. -/
def gameDialogRecentUpdate (ls : List Str) (val : Str) : List Str :=
  (unique_list_prepend ls val).take 10

/-- `GameIterator` (session.py line 49): the Browse page cursor.
`count` is the total number of pages (`pages_count` from
`GamesDB.list_games`); the database handle and page size play no role in
the cursor arithmetic. -/
structure GameIterator where
  currentPage : Int
  count : Int
deriving DecidableEq, Repr

/-- `GameIterator.next` (line 62): refuses to advance only when the cursor
already equals `count` (the number of pages), otherwise increments. -/
def GameIterator.next (it : GameIterator) : GameIterator :=
  if it.currentPage = it.count then it
  else { it with currentPage := it.currentPage + 1 }

/-- `GameIterator.prev` (line 69): refuses to retreat only at 0,
otherwise decrements. -/
def GameIterator.prev (it : GameIterator) : GameIterator :=
  if it.currentPage = 0 then it
  else { it with currentPage := it.currentPage - 1 }

/-- `GameIterator.ways_to_iterate` (line 76): whether a previous / next
page exists, used to build the Backward/Forward keyboard. -/
def GameIterator.waysToIterate (it : GameIterator) : Bool × Bool :=
  (it.currentPage > 0, it.currentPage < it.count - 1)

namespace Frob

/-- `Frob._get_lines_delimiter` (session.py line 153).  Python indexes
`end[0]`, which raises `IndexError` when `end` is empty and `start` is
not; that raise is modelled as `none`. -/
def getLinesDelimiter (start endl : Str) : Option Str :=
  if start.isEmpty then some []
  else
    match endl with
    | [] => none
    | c :: _ => if pyIsUpper c || c == ' ' then some ['\n'] else some [' ']

/-- The loop body of `Frob._parse_lines` (session.py lines 170-181),
carried over the accumulated messages `msgs` and the accumulating
message `last`. -/
def parseLinesAux : List Str → List Str → Str → Option (List Str × Str)
  | [], msgs, last => some (msgs, last)
  | b0 :: rest, msgs, last =>
    match b0 with
    | [] => parseLinesAux rest msgs last
    | c :: cs =>
      let b := if c = '>' then cs else c :: cs
      if b = ['\n'] then
        parseLinesAux rest (if pyStrip last ≠ [] then msgs ++ [last] else msgs) []
      else
        match getLinesDelimiter last b with
        | none => none
        | some d => parseLinesAux rest msgs (last ++ d ++ b.dropLast)

/-- `Frob._parse_lines` (session.py line 163): reconstruct paragraphs
from one batch of raw output lines. -/
def parseLines (blines : List Str) : Option (List Str) :=
  match parseLinesAux blines [] [] with
  | none => none
  | some (msgs, last) =>
    some (if pyStrip last ≠ [] then msgs ++ [last] else msgs)

/-- The `'Game closed'` notice sent when the read loop reaches EOF. -/
def gameClosedMsg : Str := "Game closed".toList

/-- `Frob.start` (session.py line 109): the value of the suppression
counter `_messages_to_skip` and the stdin lines written, depending on
whether a prior `last.sav` exists (process creation and the drain of the
pre-restore output are I/O outside the embedding). -/
def startSkip (saveExists : Bool) : Nat × List Str :=
  if saveExists then (0, ["restore\n".toList, "last\n".toList])
  else (1, [])

/-- The inner `for msg in msgs` body of `Frob.read_loop`
(session.py lines 143-148): returns the updated suppression counter and
the messages actually sent for one batch. -/
def sendBatch : Nat → List Str → Nat × List Str
  | skip, [] => (skip, [])
  | skip, m :: ms =>
    if skip ≠ 0 then sendBatch (skip - 1) ms
    else
      let (s, sent) := sendBatch skip ms
      (s, m :: sent)

/-- `Frob.read_loop` (session.py line 139) over the successive
`_read_output` batches until EOF, returning every message sent
(ending with the `'Game closed'` notice). -/
def readLoop (skip : Nat) : List (List Str) → Option (List Str)
  | [] => some [gameClosedMsg]
  | batch :: batches =>
    match parseLines batch with
    | none => none
    | some msgs =>
      let (skip2, sent) := sendBatch skip msgs
      match readLoop skip2 batches with
      | none => none
      | some rest => some (sent ++ rest)

/-- The concatenation of the paragraphs reconstructed from each batch. -/
def parseBatches : List (List Str) → Option (List Str)
  | [] => some []
  | b :: bs =>
    match parseLines b, parseBatches bs with
    | some ms, some rest => some (ms ++ rest)
    | _, _ => none

end Frob

/-- The four dialog modes (`DIALOG_MAIN` etc., session.py lines 210-213). -/
inductive Mode
  | main | browsing | lastPlayed | game
deriving DecidableEq, Repr

/-- The transition arguments dictionary returned by a dialog's
`on_message`: the only key the code ever uses is `'game'`. -/
structure TransArgs where
  game : Option Str := none
deriving DecidableEq, Repr

/-- Tags identifying the outbound chat messages the session can send
(their full rendered bodies are opaque to the claims). -/
inductive MsgTag
  | helpMessage
  | chooseSection
  | hereYouCanSee
  | itemsPage (page : Int)
  | lastPlayedList
  | unsupportedCommand
  | gameNotStarted
  | startingGame (g : Str)
  | specifyValidGame
  | worksOnlyWhenGameOpened
deriving DecidableEq, Repr

/-- Observable side effects of event handling, in the order the Python
code performs them. -/
inductive Effect
  | send (tag : MsgTag)
  | stdinWrite (s : Str)
  | updateRecentlyPlayed (g : Str)
  | stopDialog (m : Mode)
  | commitCurrent (m : Mode)
  | startDialog (m : Mode) (args : TransArgs) (greetings : Bool)
deriving DecidableEq, Repr

/-- Whether an effect is one of the controller's dialog-protocol calls
(stop / commit / start) as opposed to a message send or stdin write. -/
def Effect.isDialogCall : Effect → Bool
  | Effect.stopDialog _ => true
  | Effect.commitCurrent _ => true
  | Effect.startDialog _ _ _ => true
  | _ => false

/-- `MainDialog._GAMES_DB`. -/
def gamesDbLabel : Str := "Games database".toList

/-- `MainDialog._RECENTLY_PLAYED`. -/
def recentlyPlayedLabel : Str := "Recently played games".toList

/-- `MainDialog._HOWTO`. -/
def howtoLabel : Str := "How to play".toList

/-- `BrowsingDialog._BACKWARD`. -/
def backwardLabel : Str := "⬅️ Backward".toList

/-- `BrowsingDialog._FORWARD`. -/
def forwardLabel : Str := "Forward ➡️".toList

/-- `BrowsingDialog._CANCEL`, `LastPlayedDialog._CANCEL` and
`GameDialog._RETURN` are all this same phrase. -/
def cancelLabel : Str := "Return to the main menu".toList

/-- `Frob.command` (session.py line 203): what is written to the process
stdin / sent to the user, given the process's current returncode. -/
def Frob.command (returncode : Option Int) (cmd : Str) : List Effect :=
  if pyTruthyRc returncode then [Effect.send MsgTag.gameNotStarted]
  else [Effect.stdinWrite (cmd ++ ['\n'])]

/-- `MainDialog.on_message` for a text event (session.py lines 239-249). -/
def mainOnMessage (text : Str) : (Mode × TransArgs) × List Effect :=
  if text = gamesDbLabel then ((Mode.browsing, {}), [])
  else if text = recentlyPlayedLabel then ((Mode.lastPlayed, {}), [])
  else if text = howtoLabel then
    ((Mode.main, {}), [Effect.send MsgTag.helpMessage])
  else ((Mode.main, {}), [Effect.send MsgTag.chooseSection])

/-- `BrowsingDialog.on_message` for a text event (session.py lines
303-317): returns the updated iterator, the dialog result and the
messages sent.  The rendered items list is tagged with the page index it
shows. -/
def browsingOnMessage (it : GameIterator) (text : Str) :
    GameIterator × ((Mode × TransArgs) × List Effect) :=
  if text = forwardLabel then
    let it2 := it.next
    (it2, ((Mode.browsing, {}), [Effect.send (MsgTag.itemsPage it2.currentPage)]))
  else if text = backwardLabel then
    let it2 := it.prev
    (it2, ((Mode.browsing, {}), [Effect.send (MsgTag.itemsPage it2.currentPage)]))
  else if text = cancelLabel then (it, ((Mode.main, {}), []))
  else
    match text with
    | '/' :: rest => (it, ((Mode.game, { game := some rest }), []))
    | _ =>
      (it, ((Mode.browsing, {}), [Effect.send (MsgTag.itemsPage it.currentPage)]))

/-- `LastPlayedDialog.on_message` for a text event (session.py lines
356-364). -/
def lastPlayedOnMessage (text : Str) : (Mode × TransArgs) × List Effect :=
  if text = cancelLabel then ((Mode.main, {}), [])
  else
    match text with
    | '/' :: rest => ((Mode.game, { game := some rest }), [])
    | _ => ((Mode.lastPlayed, {}), [Effect.send MsgTag.lastPlayedList])

/-- The prefix stripping at the top of `GameDialog.on_message`
(session.py lines 438-441): `text[9:]` after `/command`, `text[3:]`
after `/c`. -/
def stripCommandText (text : Str) : Str :=
  if "/command".toList.isPrefixOf text then text.drop 9
  else if "/c".toList.isPrefixOf text then text.drop 3
  else text

/-- `GameDialog.on_message` for a text event (session.py lines 437-453),
given the returncode of the running interpreter process. -/
def gameOnMessage (returncode : Option Int) (text0 : Str) :
    (Mode × TransArgs) × List Effect :=
  let text := stripCommandText text0
  if pyToLower text ∈ ["save".toList, "restore".toList, "quit".toList, "q".toList] then
    ((Mode.game, {}), [Effect.send MsgTag.unsupportedCommand])
  else if text = cancelLabel then ((Mode.main, {}), [])
  else if text = [] then ((Mode.game, {}), [])
  else ((Mode.game, {}), Frob.command returncode text)

/-- The per-session state the claims touch: the current mode, the Browse
page cursor, the two recently-played lists (`state['recently_played']`
updated by the controller, and `state['last-played']['games']` updated by
`GameDialog.start`), the InGame dialog's stored game identifier, and the
returncode of the interpreter process. -/
structure SessionState where
  current : Mode
  browsingIt : GameIterator
  recentlyPlayed : List Str
  lastPlayedGames : List Str
  gameGame : Option Str
  frobRc : Option Int
deriving DecidableEq, Repr

/-- Dispatch of a text event to the active dialog's `on_message`
(the lookup `self._dialogs[self._state['current']].on_message(msg)` in
`Session._pass_message`). -/
def dialogOnMessage (st : SessionState) (text : Str) :
    SessionState × ((Mode × TransArgs) × List Effect) :=
  match st.current with
  | Mode.main => (st, mainOnMessage text)
  | Mode.browsing =>
    let (it2, res) := browsingOnMessage st.browsingIt text
    ({ st with browsingIt := it2 }, res)
  | Mode.lastPlayed => (st, lastPlayedOnMessage text)
  | Mode.game => (st, gameOnMessage st.frobRc text)

/-- Python truthiness of a string: the empty string is falsy. -/
def pyTruthyStr (s : Str) : Bool := !s.isEmpty

/-- The `else: game = self._state['game']` branch of `GameDialog.start`
(session.py lines 407-411), taken when the game argument is falsy (absent
or the empty string): the previously stored game is used — a `KeyError`
(modelled `none`) when none is stored — and the stored game identifier is
left unchanged. -/
def gameDialogResume (st : SessionState) : Option (SessionState × List Effect) :=
  match st.gameGame with
  | none => none
  | some g =>
    some ({ st with
              lastPlayedGames := gameDialogRecentUpdate st.lastPlayedGames g
              frobRc := none },
          [Effect.send (MsgTag.startingGame g)])

/-- The `start(**args, greetings=True)` call on the dialog of mode `m`:
its state changes and the messages it sends.  `GameDialog.start` tests
the truthiness of its game argument (`if game:`, session.py line 408):
only a non-empty game argument is stored and opened; a falsy one (absent
or empty string) falls back to the previously stored game, raising
`KeyError` (modelled `none`) when none is stored.  Starting a game
(re)creates the Frob process, so the stored returncode becomes `None`
(running). -/
def startDialogRun (st : SessionState) (m : Mode) (args : TransArgs) :
    Option (SessionState × List Effect) :=
  match m with
  | Mode.main => some (st, [Effect.send MsgTag.chooseSection])
  | Mode.browsing =>
    some (st, [Effect.send MsgTag.hereYouCanSee,
               Effect.send (MsgTag.itemsPage st.browsingIt.currentPage)])
  | Mode.lastPlayed => some (st, [Effect.send MsgTag.lastPlayedList])
  | Mode.game =>
    match args.game with
    | some g =>
      if pyTruthyStr g then
        some ({ st with
                  gameGame := some g
                  lastPlayedGames := gameDialogRecentUpdate st.lastPlayedGames g
                  frobRc := none },
              [Effect.send (MsgTag.startingGame g)])
      else gameDialogResume st
    | none => gameDialogResume st

/-- `Session._apply_state` (session.py lines 582-588): if the target mode
is InGame, update the controller's recently-played list first (Python
reads `args['game']`, a `KeyError` — hence `none` — when absent); then
stop the current dialog, commit the new current mode, and start the new
dialog with the transition arguments and `greetings=True`. -/
def applyState (st : SessionState) (m : Mode) (args : TransArgs) :
    Option (SessionState × List Effect) :=
  match (if m = Mode.game then
           match args.game with
           | none => none
           | some g =>
             some ({ st with
                     recentlyPlayed := add_to_recently_played st.recentlyPlayed g },
                   [Effect.updateRecentlyPlayed g])
         else some (st, ([] : List Effect))) with
  | none => none
  | some (st1, eff1) =>
    match startDialogRun { st1 with current := m } m args with
    | none => none
    | some (st2, eff2) =>
      some (st2, eff1 ++ [Effect.stopDialog st.current, Effect.commitCurrent m,
                          Effect.startDialog m args true] ++ eff2)

/-- `Session._pass_message` for a text event (session.py lines 577-580):
delegate to the active dialog and apply the transition protocol when the
returned mode differs from the current one. -/
def passMessage (st : SessionState) (text : Str) :
    Option (SessionState × List Effect) :=
  let (st1, res) := dialogOnMessage st text
  if res.1.1 ≠ st1.current then
    match applyState st1 res.1.1 res.1.2 with
    | none => none
    | some (st2, eff2) => some (st2, res.2 ++ eff2)
  else some (st1, res.2)

/-- `Session.on_chat_message` for a text event (session.py lines
554-571): the global `/help`, `/game` and `/command`-or-`/c` shortcuts,
everything else delegated to the active dialog. -/
def onChatMessage (st : SessionState) (text : Str) :
    Option (SessionState × List Effect) :=
  if text = "/help".toList then some (st, [Effect.send MsgTag.helpMessage])
  else if "/game".toList.isPrefixOf text then
    let g := text.drop 6
    if g = [] then some (st, [Effect.send MsgTag.specifyValidGame])
    else applyState st Mode.game { game := some g }
  else if "/command".toList.isPrefixOf text || "/c".toList.isPrefixOf text then
    if st.current = Mode.game then passMessage st text
    else some (st, [Effect.send MsgTag.worksOnlyWhenGameOpened])
  else passMessage st text

/-- A session sitting in the Browse dialog, used to instantiate the
transition theorems on concrete inputs. -/
def browseState : SessionState :=
  { current := Mode.browsing,
    browsingIt := { currentPage := 0, count := 5 },
    recentlyPlayed := [],
    lastPlayedGames := [],
    gameGame := none,
    frobRc := none }

/-- A session sitting in the InGame dialog, used to instantiate the
theorems on concrete inputs. -/
def inGameState : SessionState :=
  { current := Mode.game,
    browsingIt := { currentPage := 0, count := 5 },
    recentlyPlayed := ["zork1".toList],
    lastPlayedGames := ["zork1".toList],
    gameGame := some "zork1".toList,
    frobRc := none }

/-- The session state reached from `browseState` by opening the game
`zork1`. -/
def inGameAfterBrowse : SessionState :=
  { current := Mode.game,
    browsingIt := { currentPage := 0, count := 5 },
    recentlyPlayed := ["zork1".toList],
    lastPlayedGames := ["zork1".toList],
    gameGame := some "zork1".toList,
    frobRc := none }

/-- The effect trace produced by that transition. -/
def browseToGameEffects : List Effect :=
  [Effect.updateRecentlyPlayed "zork1".toList,
   Effect.stopDialog Mode.browsing,
   Effect.commitCurrent Mode.game,
   Effect.startDialog Mode.game { game := some "zork1".toList } true,
   Effect.send (MsgTag.startingGame "zork1".toList)]

/-! ### Helper lemmas -/

theorem all_pyIsSpace_of_sublist {l1 l2 : Str} (h : l1.Sublist l2)
    (h2 : l2.all pyIsSpace = true) : l1.all pyIsSpace = true := by
  rw [List.all_eq_true] at h2 ⊢
  exact fun x hx => h2 x (h.subset hx)

theorem pyStrip_eq_nil {l : Str} (h : l.all pyIsSpace = true) : pyStrip l = [] := by
  unfold pyStrip
  have h1 : l.dropWhile pyIsSpace = [] := by
    rw [List.dropWhile_eq_nil_iff]
    exact fun x hx => List.all_eq_true.mp h x hx
  rw [h1]
  rfl

theorem any_nonws_of_pyStrip_ne_nil {l : Str} (h : pyStrip l ≠ []) :
    l.any (fun c => !pyIsSpace c) = true := by
  by_contra hc
  apply h
  apply pyStrip_eq_nil
  rw [List.all_eq_true]
  intro x hx
  by_contra hx2
  apply hc
  rw [List.any_eq_true]
  have hx3 : pyIsSpace x = false := by
    cases hb : pyIsSpace x
    · rfl
    · exact absurd hb hx2
  exact ⟨x, hx, by rw [hx3]; rfl⟩

theorem removeFirst_sublist (arr : List Str) (val : Str) :
    (removeFirst arr val).Sublist arr := by
  induction arr with
  | nil => exact List.Sublist.refl _
  | cons x xs ih =>
    unfold removeFirst
    by_cases h : x = val
    · rw [if_pos h]; exact List.sublist_cons_self x xs
    · rw [if_neg h]; exact ih.cons₂ x

theorem removeFirst_of_not_mem {arr : List Str} {val : Str} (h : val ∉ arr) :
    removeFirst arr val = arr := by
  induction arr with
  | nil => rfl
  | cons x xs ih =>
    unfold removeFirst
    rw [if_neg fun he => h (by rw [← he]; exact List.mem_cons_self x xs),
        ih fun hm => h (List.mem_cons_of_mem _ hm)]

/-! ### Claim theorems -/

/-- C1: the claim says Browse navigation keeps the page index within
`[0, pageCount-1]`.  The code violates it: with a single page
(`pageCount = 1`) and the cursor at page 0 (the only valid page), one
Forward event moves the cursor to page 1, outside `[0, 0]` —
`GameIterator.next` only refuses to advance at `count`, not `count - 1`,
while `ways_to_iterate` in the same class treats `count - 1` as the last
page (no Forward affordance is offered at page 0 of 1). -/
theorem c1_next_escapes_valid_range :
    (GameIterator.next { currentPage := 0, count := 1 }).currentPage = 1 ∧
    ¬ (GameIterator.next { currentPage := 0, count := 1 }).currentPage ≤ 1 - 1 ∧
    (GameIterator.waysToIterate { currentPage := 0, count := 1 }).2 = false := by
  decide

/-- C2 counterexample: the claim says the recently-played update never
lets the list exceed 10 entries on either update path, but
`add_to_recently_played` (the controller's transition path) does not
truncate: prepending an 11th distinct identifier to a 10-element list
yields 11 entries. -/
theorem c2_controller_update_uncapped :
    (add_to_recently_played
      ["a".toList, "b".toList, "c".toList, "d".toList, "e".toList,
       "f".toList, "g".toList, "h".toList, "i".toList, "j".toList]
      "k".toList).length = 11 := by decide

/-- C2 amended: the `GameDialog.start` path (`unique_list_prepend` then
truncation to 10) puts the value exactly once, at the head, keeps the
remaining retained values in their original relative order, and never
exceeds 10 entries; the controller path (`add_to_recently_played`) puts
the value at the head and removes only the first prior occurrence,
keeping the rest in order, but does not cap the length at 10. -/
theorem c2_recently_played_update (ls arr : List Str) (val : Str) :
    gameDialogRecentUpdate ls val =
      val :: (ls.filter (fun l => decide (l ≠ val))).take 9 ∧
    (gameDialogRecentUpdate ls val).head? = some val ∧
    val ∉ (gameDialogRecentUpdate ls val).tail ∧
    (gameDialogRecentUpdate ls val).tail.Sublist ls ∧
    (gameDialogRecentUpdate ls val).length ≤ 10 ∧
    add_to_recently_played arr val = val :: removeFirst arr val ∧
    (removeFirst arr val).Sublist arr := by
  have heq : gameDialogRecentUpdate ls val =
      val :: (ls.filter (fun l => decide (l ≠ val))).take 9 := rfl
  refine ⟨heq, by rw [heq]; rfl, ?_, ?_, ?_, ?_, removeFirst_sublist arr val⟩
  · rw [heq]
    intro hmem
    have h1 := List.mem_of_mem_take hmem
    have h2 := (List.mem_filter.mp h1).2
    simp at h2
  · rw [heq]
    exact ((List.take_sublist _ _).trans (List.filter_sublist ls))
  · rw [heq]
    have := List.length_take_le 9 (ls.filter (fun l => decide (l ≠ val)))
    simp only [List.length_cons]
    omega
  · unfold add_to_recently_played
    by_cases h : val ∈ arr
    · rw [if_pos h]
    · rw [if_neg h, removeFirst_of_not_mem h]

/-- C2 witness: the amended statement at concrete inputs. -/
theorem c2_recently_played_update_witness :
    gameDialogRecentUpdate ["a".toList, "b".toList] "b".toList =
      "b".toList :: (["a".toList, "b".toList].filter
        (fun l => decide (l ≠ "b".toList))).take 9 ∧
    (gameDialogRecentUpdate ["a".toList, "b".toList] "b".toList).head? =
      some "b".toList ∧
    "b".toList ∉ (gameDialogRecentUpdate ["a".toList, "b".toList] "b".toList).tail ∧
    (gameDialogRecentUpdate ["a".toList, "b".toList] "b".toList).tail.Sublist
      ["a".toList, "b".toList] ∧
    (gameDialogRecentUpdate ["a".toList, "b".toList] "b".toList).length ≤ 10 ∧
    add_to_recently_played ["c".toList] "b".toList =
      "b".toList :: removeFirst ["c".toList] "b".toList ∧
    (removeFirst ["c".toList] "b".toList).Sublist ["c".toList] :=
  c2_recently_played_update ["a".toList, "b".toList] ["c".toList] "b".toList

/-- C3: the joining delimiter for a non-empty new line is a newline when
its first character is uppercase or a space and a single space otherwise,
and it is empty when the accumulating message is empty. -/
theorem c3_lines_delimiter (start : Str) (c : Char) (rest : Str) :
    Frob.getLinesDelimiter start (c :: rest) =
      some (if start.isEmpty then []
            else if pyIsUpper c || c == ' ' then ['\n'] else [' ']) := by
  by_cases h : start.isEmpty
  · simp [Frob.getLinesDelimiter, h]
  · by_cases h2 : (pyIsUpper c || c == ' ') = true
    · simp [Frob.getLinesDelimiter, h, h2]
    · simp [Frob.getLinesDelimiter, h, h2]

/-- C3 witness: the delimiter rule at concrete inputs. -/
theorem c3_lines_delimiter_witness :
    Frob.getLinesDelimiter "Hi".toList ('W' :: "orld".toList) = some ['\n'] := by
  rw [c3_lines_delimiter "Hi".toList 'W' "orld".toList]
  decide

/-- C4: parsing the batch `["Hello.\n", "\n", "World.\n"]` yields exactly
the two messages `"Hello."` and `"World."`, in that order. -/
theorem c4_hello_world :
    Frob.parseLines ["Hello.\n".toList, "\n".toList, "World.\n".toList] =
      some ["Hello.".toList, "World.".toList] := by decide

/-- C8: the claim says a command sent after the interpreter process has
exited writes nothing and produces a `'Game not started'` notice.  The
code tests the truthiness of `returncode`, so this only happens for a
nonzero exit status: a process that exited normally (returncode 0) is
treated like a running one and the command is still written to its stdin
with no notice. -/
theorem c8_returncode_truthiness :
    Frob.command none "look".toList =
      [Effect.stdinWrite ("look".toList ++ ['\n'])] ∧
    Frob.command (some 1) "look".toList = [Effect.send MsgTag.gameNotStarted] ∧
    Frob.command (some 0) "look".toList =
      [Effect.stdinWrite ("look".toList ++ ['\n'])] := by decide

theorem pyIsSpace_ne_gt {c : Char} (h : pyIsSpace c = true) : ¬ c = '>' := by
  intro he
  rw [he] at h
  exact absurd h (by decide)

theorem parseLinesAux_nonws (blines : List Str) :
    ∀ (msgs : List Str) (last : Str) (msgs2 : List Str) (last2 : Str),
      (∀ m ∈ msgs, m.any (fun c => !pyIsSpace c) = true) →
      Frob.parseLinesAux blines msgs last = some (msgs2, last2) →
      ∀ m ∈ msgs2, m.any (fun c => !pyIsSpace c) = true := by
  induction blines with
  | nil =>
    intro msgs last msgs2 last2 hm h
    unfold Frob.parseLinesAux at h
    injection h with h1
    injection h1 with h2 h3
    rw [← h2]
    exact hm
  | cons b0 rest ih =>
    intro msgs last msgs2 last2 hm h
    match b0 with
    | [] =>
      unfold Frob.parseLinesAux at h
      exact ih msgs last msgs2 last2 hm h
    | c :: cs =>
      simp only [Frob.parseLinesAux] at h
      generalize hb : (if c = '>' then cs else c :: cs) = b at h
      by_cases hnl : b = ['\n']
      · rw [if_pos hnl] at h
        by_cases hs : pyStrip last ≠ []
        · rw [if_pos hs] at h
          refine ih _ _ _ _ ?_ h
          intro m hm2
          rcases List.mem_append.mp hm2 with hma | hmb
          · exact hm m hma
          · rw [List.mem_singleton.mp hmb]
            exact any_nonws_of_pyStrip_ne_nil hs
        · rw [if_neg hs] at h
          exact ih _ _ _ _ hm h
      · rw [if_neg hnl] at h
        cases hd : Frob.getLinesDelimiter last b with
        | none =>
          rw [hd] at h
          exact Option.noConfusion h
        | some d =>
          rw [hd] at h
          exact ih _ _ _ _ hm h

theorem parseLinesAux_allws (blines : List Str) :
    ∀ last : Str,
      (∀ l ∈ blines, l.all pyIsSpace = true) → last.all pyIsSpace = true →
      ∃ last2, Frob.parseLinesAux blines [] last = some ([], last2) ∧
        last2.all pyIsSpace = true := by
  induction blines with
  | nil =>
    intro last hb hl
    exact ⟨last, rfl, hl⟩
  | cons b0 rest ih =>
    intro last hb hl
    have hb0 : b0.all pyIsSpace = true := hb b0 (List.mem_cons_self _ _)
    have hrest : ∀ l ∈ rest, l.all pyIsSpace = true :=
      fun l hlm => hb l (List.mem_cons_of_mem _ hlm)
    match b0 with
    | [] =>
      unfold Frob.parseLinesAux
      exact ih last hrest hl
    | c :: cs =>
      have hc : pyIsSpace c = true := List.all_eq_true.mp hb0 c (List.mem_cons_self _ _)
      have hcne : ¬ c = '>' := pyIsSpace_ne_gt hc
      unfold Frob.parseLinesAux
      simp only [if_neg hcne]
      by_cases hnl : (c :: cs) = ['\n']
      · rw [if_pos hnl]
        have hstrip : pyStrip last = [] := pyStrip_eq_nil hl
        rw [if_neg (by simp [hstrip])]
        exact ih [] hrest rfl
      · rw [if_neg hnl]
        have hdel : ∃ d, Frob.getLinesDelimiter last (c :: cs) = some d ∧
            d.all pyIsSpace = true := by
          by_cases hle : last.isEmpty
          · exact ⟨[], by simp [Frob.getLinesDelimiter, hle], rfl⟩
          · by_cases hup : (pyIsUpper c || c == ' ') = true
            · exact ⟨['\n'], by simp [Frob.getLinesDelimiter, hle, hup], by decide⟩
            · exact ⟨[' '], by simp [Frob.getLinesDelimiter, hle, hup], by decide⟩
        obtain ⟨d, hd, hdall⟩ := hdel
        rw [hd]
        apply ih
        · exact hrest
        · rw [List.all_append, List.all_append]
          rw [hl, hdall, all_pyIsSpace_of_sublist (List.dropLast_sublist _) hb0]
          rfl

/-- C9: every message emitted by the paragraph-reconstruction parser
contains at least one non-whitespace character, and a batch made only of
blank lines, empty chunks or whitespace produces no messages at all. -/
theorem c9_messages_have_content (blines : List Str) :
    (∀ msgs, Frob.parseLines blines = some msgs →
       ∀ m ∈ msgs, m.any (fun c => !pyIsSpace c) = true) ∧
    ((∀ l ∈ blines, l.all pyIsSpace = true) →
       Frob.parseLines blines = some []) := by
  constructor
  · intro msgs h m hm
    unfold Frob.parseLines at h
    cases heq : Frob.parseLinesAux blines [] [] with
    | none => rw [heq] at h; exact absurd h (by simp)
    | some p =>
      obtain ⟨ms, last⟩ := p
      rw [heq] at h
      injection h with h2
      have hms : ∀ m ∈ ms, m.any (fun c => !pyIsSpace c) = true :=
        parseLinesAux_nonws blines [] [] ms last (by intro m hm2; cases hm2) heq
      rw [← h2] at hm
      by_cases hs : pyStrip last ≠ []
      · rw [if_pos hs] at hm
        rcases List.mem_append.mp hm with hma | hmb
        · exact hms m hma
        · rw [List.mem_singleton.mp hmb]
          exact any_nonws_of_pyStrip_ne_nil hs
      · rw [if_neg hs] at hm
        exact hms m hm
  · intro hws
    obtain ⟨last2, h1, h2⟩ := parseLinesAux_allws blines [] hws rfl
    simp [Frob.parseLines, h1, pyStrip_eq_nil h2]

/-- C9 witness: a batch of whitespace-only lines and empty chunks
produces no messages. -/
theorem c9_messages_have_content_witness :
    Frob.parseLines [" \n".toList, "\n".toList, [], "\t \n".toList] = some [] :=
  (c9_messages_have_content _).2 (by decide)

theorem sendBatch_eq (ms : List Str) :
    ∀ skip : Nat, Frob.sendBatch skip ms = (skip - ms.length, ms.drop skip) := by
  induction ms with
  | nil =>
    intro skip
    simp [Frob.sendBatch]
  | cons m ms ih =>
    intro skip
    match skip with
    | 0 =>
      unfold Frob.sendBatch
      rw [if_neg (by simp)]
      simp [ih 0]
    | k + 1 =>
      unfold Frob.sendBatch
      rw [if_pos (by simp)]
      simp only [Nat.add_sub_cancel]
      rw [ih k]
      simp only [List.length_cons, List.drop_succ_cons]
      rw [show k + 1 - (ms.length + 1) = k - ms.length from by omega]

theorem readLoop_eq (bs : List (List Str)) :
    ∀ skip : Nat,
      Frob.readLoop skip bs =
        (Frob.parseBatches bs).map
          (fun ms => ms.drop skip ++ [Frob.gameClosedMsg]) := by
  induction bs with
  | nil =>
    intro skip
    simp [Frob.readLoop, Frob.parseBatches]
  | cons b bs ih =>
    intro skip
    cases hp : Frob.parseLines b with
    | none => simp [Frob.readLoop, Frob.parseBatches, hp]
    | some msgs =>
      cases hr : Frob.parseBatches bs with
      | none =>
        simp [Frob.readLoop, Frob.parseBatches, hp, hr, sendBatch_eq, ih]
      | some rest =>
        simp [Frob.readLoop, Frob.parseBatches, hp, hr, sendBatch_eq, ih,
              List.drop_append_eq_append_drop, List.append_assoc]

/-- C5: when the driver starts with no prior save file, the suppression
counter is armed to 1, and the read loop then drops exactly the first
reconstructed paragraph and sends every later one (followed by the
terminal `'Game closed'` notice). -/
theorem c5_first_paragraph_suppressed (bs : List (List Str)) (msgs : List Str)
    (h : Frob.parseBatches bs = some msgs) :
    (Frob.startSkip false).1 = 1 ∧
    Frob.readLoop (Frob.startSkip false).1 bs =
      some (msgs.drop 1 ++ [Frob.gameClosedMsg]) := by
  refine ⟨rfl, ?_⟩
  rw [readLoop_eq bs (Frob.startSkip false).1, h]
  rfl

/-- C5 witness: the suppression behaviour on a concrete pair of
batches. -/
theorem c5_first_paragraph_suppressed_witness :
    (Frob.startSkip false).1 = 1 ∧
    Frob.readLoop (Frob.startSkip false).1
        [["Hello.\n".toList, "\n".toList], ["World.\n".toList]] =
      some (["Hello.".toList, "World.".toList].drop 1 ++ [Frob.gameClosedMsg]) :=
  c5_first_paragraph_suppressed
    [["Hello.\n".toList, "\n".toList], ["World.\n".toList]]
    ["Hello.".toList, "World.".toList] (by decide)

/-- C6: whenever the controller applies a mode transition, it performs,
in this exact order: the recently-played update (exactly when the new
mode is InGame), `stop` on the currently active dialog, the commit of the
new current mode, and `start` on the new dialog with the transition
arguments and the greeting flag set; no other dialog stop/start/commit
occurs, so exactly one dialog is active and the old dialog's stop
completes before the new dialog's start begins. -/
theorem c6_transition_protocol (st : SessionState) (m : Mode) (args : TransArgs)
    (st2 : SessionState) (eff : List Effect)
    (h : applyState st m args = some (st2, eff)) :
    ∃ pre post,
      eff = pre ++ [Effect.stopDialog st.current, Effect.commitCurrent m,
                    Effect.startDialog m args true] ++ post ∧
      (m = Mode.game → ∃ g, args.game = some g ∧
        pre = [Effect.updateRecentlyPlayed g]) ∧
      (m ≠ Mode.game → pre = []) ∧
      (∀ e ∈ pre, Effect.isDialogCall e = false) ∧
      (∀ e ∈ post, Effect.isDialogCall e = false) ∧
      st2.current = m := by
  obtain ⟨cur, bIt, rp, lp, gg, rc⟩ := st
  cases m with
  | game =>
    obtain ⟨og⟩ := args
    cases og with
    | none => exact Option.noConfusion h
    | some g =>
      cases g with
      | nil =>
        cases gg with
        | none => exact Option.noConfusion h
        | some g0 =>
          injection h with h3
          injection h3 with h4 h5
          subst h4
          subst h5
          refine ⟨[Effect.updateRecentlyPlayed []],
            [Effect.send (MsgTag.startingGame g0)], rfl, ?_, ?_, ?_, ?_, rfl⟩
          · intro _
            exact ⟨[], rfl, rfl⟩
          · intro hne
            exact absurd rfl hne
          · intro e he
            rw [List.mem_singleton.mp he]
            rfl
          · intro e he
            rw [List.mem_singleton.mp he]
            rfl
      | cons a t =>
        injection h with h3
        injection h3 with h4 h5
        subst h4
        subst h5
        refine ⟨[Effect.updateRecentlyPlayed (a :: t)],
          [Effect.send (MsgTag.startingGame (a :: t))], rfl, ?_, ?_, ?_, ?_, rfl⟩
        · intro _
          exact ⟨a :: t, rfl, rfl⟩
        · intro hne
          exact absurd rfl hne
        · intro e he
          rw [List.mem_singleton.mp he]
          rfl
        · intro e he
          rw [List.mem_singleton.mp he]
          rfl
  | main =>
    injection h with h3
    injection h3 with h4 h5
    subst h4
    subst h5
    refine ⟨[], [Effect.send MsgTag.chooseSection], rfl, ?_, fun _ => rfl, ?_, ?_, rfl⟩
    · intro hh
      exact absurd hh (by decide)
    · intro e he
      cases he
    · intro e he
      rw [List.mem_singleton.mp he]
      rfl
  | browsing =>
    injection h with h3
    injection h3 with h4 h5
    subst h4
    subst h5
    refine ⟨[], [Effect.send MsgTag.hereYouCanSee,
                 Effect.send (MsgTag.itemsPage bIt.currentPage)],
      rfl, ?_, fun _ => rfl, ?_, ?_, rfl⟩
    · intro hh
      exact absurd hh (by decide)
    · intro e he
      cases he
    · intro e he
      cases he with
      | head => rfl
      | tail b ht =>
        cases ht with
        | head => rfl
        | tail c ht2 => cases ht2
  | lastPlayed =>
    injection h with h3
    injection h3 with h4 h5
    subst h4
    subst h5
    refine ⟨[], [Effect.send MsgTag.lastPlayedList], rfl, ?_, fun _ => rfl, ?_, ?_, rfl⟩
    · intro hh
      exact absurd hh (by decide)
    · intro e he
      cases he
    · intro e he
      rw [List.mem_singleton.mp he]
      rfl

/-- C6 witness: the transition protocol at a concrete transition
(Browse to InGame, opening `zork1`). -/
theorem c6_transition_protocol_witness :
    applyState browseState Mode.game { game := some "zork1".toList } =
      some (inGameAfterBrowse, browseToGameEffects) ∧
    ∃ pre post,
      browseToGameEffects =
        pre ++ [Effect.stopDialog browseState.current, Effect.commitCurrent Mode.game,
                Effect.startDialog Mode.game { game := some "zork1".toList } true] ++ post ∧
      (Mode.game = Mode.game → ∃ g,
        ({ game := some "zork1".toList } : TransArgs).game = some g ∧
        pre = [Effect.updateRecentlyPlayed g]) ∧
      (Mode.game ≠ Mode.game → pre = []) ∧
      (∀ e ∈ pre, Effect.isDialogCall e = false) ∧
      (∀ e ∈ post, Effect.isDialogCall e = false) ∧
      inGameAfterBrowse.current = Mode.game :=
  ⟨by decide,
   c6_transition_protocol browseState Mode.game { game := some "zork1".toList }
     inGameAfterBrowse browseToGameEffects (by decide)⟩

/-- C7 counterexample: the claim says every `/identifier` text event in
Browse opens that game, but `/cave` in Browse is intercepted by the
session's global `/c` shortcut: the user only gets a notice and the
session stays in Browse. -/
theorem c7_slash_c_intercepted :
    onChatMessage browseState "/cave".toList =
      some (browseState, [Effect.send MsgTag.worksOnlyWhenGameOpened]) ∧
    browseState.current = Mode.browsing := by decide

/-- C7 amended: a `/identifier` text event received in Browse transitions
the session to InGame with that identifier, provided the identifier is
non-empty (an empty one is falsy for `GameDialog.start`'s `if game:`
test, which then falls back to the stored game or raises `KeyError`) and
the event is not captured first by the session's global shortcuts, i.e.
the identifier is not `help` and does not start with `game` or `c`. -/
theorem c7_open_game_from_browse (st : SessionState) (ident : Str)
    (hcur : st.current = Mode.browsing)
    (hident : ident ≠ [])
    (hhelp : ident ≠ "help".toList)
    (hgame : "game".toList.isPrefixOf ident = false)
    (hc : "c".toList.isPrefixOf ident = false) :
    ∃ st2 eff, onChatMessage st ('/' :: ident) = some (st2, eff) ∧
      st2.current = Mode.game ∧
      st2.gameGame = some ident ∧
      st2.recentlyPlayed = add_to_recently_played st.recentlyPlayed ident ∧
      st2.lastPlayedGames = gameDialogRecentUpdate st.lastPlayedGames ident := by
  obtain ⟨cur, bIt, rp, lp, gg, rc⟩ := st
  replace hcur : cur = Mode.browsing := hcur
  subst hcur
  cases ident with
  | nil => exact absurd rfl hident
  | cons a t =>
    have h1 : ('/' :: a :: t) ≠ "/help".toList := by
      intro he
      rw [show "/help".toList = '/' :: "help".toList from rfl] at he
      injection he with _ h2
      exact hhelp h2
    have hcom : "command".toList.isPrefixOf (a :: t) = false := by
      have hca : ('c' == a) = false := by
        cases hb : ('c' == a) with
        | false => rfl
        | true =>
          exfalso
          rw [← beq_iff_eq.mp hb] at hc
          rw [show "c".toList = ['c'] from rfl, List.isPrefixOf_cons₂] at hc
          simp at hc
      show (('c' == a) && List.isPrefixOf "ommand".toList t) = false
      rw [hca]
      rfl
    have h2 : "/game".toList.isPrefixOf ('/' :: a :: t) = false := by
      show (('/' == '/') && "game".toList.isPrefixOf (a :: t)) = false
      rw [hgame]
      rfl
    have h3 : "/command".toList.isPrefixOf ('/' :: a :: t) = false := by
      show (('/' == '/') && "command".toList.isPrefixOf (a :: t)) = false
      rw [hcom]
      rfl
    have h4 : "/c".toList.isPrefixOf ('/' :: a :: t) = false := by
      show (('/' == '/') && "c".toList.isPrefixOf (a :: t)) = false
      rw [hc]
      rfl
    unfold onChatMessage
    rw [if_neg h1]
    rw [if_neg (by rw [h2]; exact Bool.false_ne_true)]
    rw [if_neg (by rw [h3, h4]; decide)]
    exact ⟨_, _, rfl, rfl, rfl, rfl, rfl⟩

/-- C7 amended witness: `/zork1` in Browse opens `zork1`. -/
theorem c7_open_game_from_browse_witness :
    ∃ st2 eff, onChatMessage browseState ('/' :: "zork1".toList) = some (st2, eff) ∧
      st2.current = Mode.game ∧
      st2.gameGame = some "zork1".toList ∧
      st2.recentlyPlayed =
        add_to_recently_played browseState.recentlyPlayed "zork1".toList ∧
      st2.lastPlayedGames =
        gameDialogRecentUpdate browseState.lastPlayedGames "zork1".toList :=
  c7_open_game_from_browse browseState "zork1".toList rfl (by decide) (by decide)
    (by decide) (by decide)

/-- C10: while InGame, a text event that is empty after stripping its
`/command` or `/c` prefix is silently ignored: the session state is
unchanged (still InGame) and no message is sent and nothing is written to
the interpreter process. -/
theorem c10_empty_stripped_command (st : SessionState) (text : Str)
    (hcur : st.current = Mode.game)
    (hpre : "/c".toList.isPrefixOf text = true)
    (hstrip : stripCommandText text = []) :
    onChatMessage st text = some (st, []) := by
  obtain ⟨cur, bIt, rp, lp, gg, rc⟩ := st
  replace hcur : cur = Mode.game := hcur
  subst hcur
  obtain ⟨t, ht⟩ : ∃ t, text = '/' :: 'c' :: t := by
    obtain ⟨t, ht⟩ := List.isPrefixOf_iff_prefix.mp hpre
    exact ⟨t, by rw [← ht]; rfl⟩
  subst ht
  have h1 : ('/' :: 'c' :: t) ≠ "/help".toList := by
    intro he
    rw [show "/help".toList = '/' :: 'h' :: "elp".toList from rfl] at he
    injection he with _ h2
    injection h2 with h3 _
    exact absurd h3 (by decide)
  have h2 : "/game".toList.isPrefixOf ('/' :: 'c' :: t) = false := rfl
  unfold onChatMessage
  rw [if_neg h1]
  rw [if_neg (by rw [h2]; exact Bool.false_ne_true)]
  have hor : ("/command".toList.isPrefixOf ('/' :: 'c' :: t) ||
      "/c".toList.isPrefixOf ('/' :: 'c' :: t)) = true := by
    rw [show "/c".toList = ['/', 'c'] from rfl, List.isPrefixOf_cons₂,
        List.isPrefixOf_cons₂]
    simp
  rw [if_pos hor]
  rw [if_pos (by rfl)]
  unfold passMessage
  have hd : dialogOnMessage ⟨Mode.game, bIt, rp, lp, gg, rc⟩ ('/' :: 'c' :: t) =
      (⟨Mode.game, bIt, rp, lp, gg, rc⟩, gameOnMessage rc ('/' :: 'c' :: t)) := rfl
  rw [hd]
  have hg : gameOnMessage rc ('/' :: 'c' :: t) = ((Mode.game, {}), []) := by
    unfold gameOnMessage
    rw [hstrip]
    rfl
  rw [hg]
  rfl

/-- C10 witness: `/c` with nothing after it, while InGame, is ignored. -/
theorem c10_empty_stripped_command_witness :
    onChatMessage inGameState "/c".toList = some (inGameState, []) :=
  c10_empty_stripped_command inGameState "/c".toList rfl rfl rfl
